import Mathlib

/- Shallow embedding of pmdock (src/pmdock.c): the tile data model, tile
   geometry, the dockapp swallowing protocol, the CreateNotify dispatcher,
   the X protocol error handler and command line option parsing.  The
   32-bit unsigned arithmetic of the C source is modelled on Nat/Int with
   explicit reduction modulo 2^32 where the source computes in unsigned
   int and stores results into int fields. -/

/-- Width of the C unsigned int type: 2^32. -/
def U32 : Nat := 4294967296

/-- Conversion of a value reduced modulo 2^32 to a C int (two-complement
    wraparound above 2^31, as gcc and clang implement it). -/
def toInt32 (n : Nat) : Int :=
  if n % U32 < 2147483648 then ((n % U32 : Nat) : Int)
  else ((n % U32 : Nat) : Int) - (U32 : Int)

/-- Conversion of a C int to a 32-bit unsigned value. -/
def toUInt32i (x : Int) : Nat := (x % (U32 : Int)).toNat

/-- C unsigned subtraction a - b reduced modulo 2^32. -/
def usub32 (a b : Nat) : Nat := (a % U32 + (U32 - b % U32)) % U32

/-- TILE_TYPE_APP from src/pmdock.c. -/
def TILE_TYPE_APP : Nat := 0

/-- TILE_TYPE_LAUNCHER from src/pmdock.c. -/
def TILE_TYPE_LAUNCHER : Nat := 1

/-- struct tile from src/pmdock.c.  The window field uses 0 for None, the
    icon field records the image handle as the loaded path. -/
structure Tile where
  command : String
  icon : Option String
  pid : Nat
  res_name : Option String
  type : Nat
  window : Nat
deriving DecidableEq, Repr

/-- A zeroed tile as produced by the calloc allocation in parse_opts. -/
def tile_default : Tile :=
  { command := "", icon := none, pid := 0, res_name := none, type := 0, window := 0 }

/-- The part of struct app the claims depend on, together with the Boolean
    listening that models whether SubstructureNotifyMask is still selected
    on the root window (cleared by XSelectInput(display, root_window, 0)). -/
structure AppState where
  tiles : List Tile
  tile_size : Nat
  horizontal : Bool
  daemon_mode : Bool
  root_window : Nat
  dock_window : Nat
  listening : Bool
deriving DecidableEq, Repr

/-- One CreateNotify event together with the responses the X server gives
    to the queries made while handling it: res_name is the class hint
    resource name (none when XGetClassHint fails), wmRunning the
    check_window_manager snapshot, icon the per-attempt result of
    get_icon_window (0 for None), iconSize the icon window geometry. -/
structure CreateEvent where
  window : Nat
  res_name : Option String
  wmRunning : Bool
  icon : Nat → Nat
  iconSize : Nat × Nat

/-- The X11 requests and process-level actions recorded by the model. -/
inductive XOp where
  | getHints (w : Nat)
  | sleep (usec : Nat)
  | setBorderWidth (w bw : Nat)
  | unmapWindow (w : Nat)
  | reparentWindow (w parent : Nat) (x y : Int)
  | mapRaised (w : Nat)
  | flush
  | selectInput (w mask : Nat)
  | signalParent
deriving DecidableEq, Repr

/-- get_tile_position from src/pmdock.c lines 340-347: the unsigned
    product index * tile_size is stored into the int fields of
    struct position. -/
def get_tile_position (horizontal : Bool) (tile_size index : Nat) : Int × Int :=
  (if horizontal then toInt32 (index * tile_size) else 0,
   if horizontal then 0 else toInt32 (index * tile_size))

/-- Icon placement computed by swallow_dockapp, src/pmdock.c lines
    386-389: icon_x = tile_pos.x + (tile_size - width) / 2 where the
    subtraction and division are unsigned, the sum converts tile_pos.x to
    unsigned, and the result is stored into an int. -/
def swallow_icon_pos (horizontal : Bool) (tile_size index w h : Nat) : Int × Int :=
  (toInt32 (toUInt32i (get_tile_position horizontal tile_size index).1 + usub32 tile_size w / 2),
   toInt32 (toUInt32i (get_tile_position horizontal tile_size index).2 + usub32 tile_size h / 2))

/-- Launcher icon placement computed by handle_expose_event, src/pmdock.c
    lines 536-537: centered while the image is strictly smaller than the
    tile, otherwise drawn at the tile origin on that axis. -/
def launcher_icon_pos (tile_size w h : Nat) : Int × Int :=
  ((if w < tile_size then (((tile_size - w) / 2 : Nat) : Int) else 0),
   (if h < tile_size then (((tile_size - h) / 2 : Nat) : Int) else 0))

/-- check_all_dockapps_swallowed from src/pmdock.c lines 349-359. -/
def check_all_dockapps_swallowed : List Tile → Bool
  | [] => true
  | t :: rest =>
    if t.type = TILE_TYPE_APP ∧ t.window = 0 then false
    else check_all_dockapps_swallowed rest

/-- The retry loop of get_icon_window_waiting: for (i = 0; i < 2; ++i)
    query the WM hints; on failure usleep(100000) and retry. -/
def waiting_loop (ev : CreateEvent) (attempt remaining : Nat) : Nat × List XOp :=
  match remaining with
  | 0 => (0, [])
  | n + 1 =>
    let ret := ev.icon attempt
    if ret ≠ 0 then (ret, [XOp.getHints ev.window])
    else
      let rest := waiting_loop ev (attempt + 1) n
      (rest.1, XOp.getHints ev.window :: XOp.sleep 100000 :: rest.2)

/-- get_icon_window_waiting from src/pmdock.c lines 258-275. -/
def get_icon_window_waiting (ev : CreateEvent) : Nat × List XOp :=
  waiting_loop ev 0 2

/-- swallow_dockapp from src/pmdock.c lines 361-422.  Log messages are not
    modelled; the X requests are recorded in order; XSelectInput with mask
    0 on the root window also clears the listening flag of the model. -/
def swallow_dockapp (s : AppState) (ev : CreateEvent) (index : Nat) : AppState × List XOp :=
  let preOps : List XOp := if ev.wmRunning then [XOp.sleep 100000] else []
  let found := get_icon_window_waiting ev
  if found.1 = 0 then
    (s, preOps ++ found.2)
  else
    let icon_window := found.1
    let tiles2 := s.tiles.set index { s.tiles.getD index tile_default with window := icon_window }
    let ip := swallow_icon_pos s.horizontal s.tile_size index ev.iconSize.1 ev.iconSize.2
    let main_x : Int := if s.horizontal then ip.1 else toInt32 (s.tile_size * 2)
    let main_y : Int := if s.horizontal then toInt32 (s.tile_size * 2) else ip.2
    let wmOps : List XOp :=
      if ev.wmRunning then
        [XOp.unmapWindow ev.window, XOp.unmapWindow icon_window, XOp.flush, XOp.sleep 50000,
         XOp.reparentWindow ev.window s.dock_window main_x main_y,
         XOp.reparentWindow icon_window s.dock_window ip.1 ip.2,
         XOp.flush, XOp.sleep 50000]
      else []
    let commonOps : List XOp :=
      [XOp.reparentWindow ev.window s.dock_window main_x main_y,
       XOp.reparentWindow icon_window s.dock_window ip.1 ip.2,
       XOp.mapRaised ev.window, XOp.mapRaised icon_window, XOp.flush]
    let baseOps := preOps ++ found.2 ++
      XOp.setBorderWidth icon_window 0 :: (wmOps ++ commonOps)
    if check_all_dockapps_swallowed tiles2 then
      ({ s with tiles := tiles2, listening := false },
        baseOps ++ XOp.selectInput s.root_window 0 ::
          (if s.daemon_mode then [XOp.signalParent] else []))
    else
      ({ s with tiles := tiles2 }, baseOps)

/-- The tile match test of handle_create_event, src/pmdock.c line 487:
    unfilled window, non-null res_name, string equality. -/
def match_tile (t : Tile) (name : String) : Bool :=
  decide (t.window = 0 ∧ t.res_name = some name)

/-- The first-match scan of handle_create_event over the tile array. -/
def find_match : List Tile → String → Option Nat
  | [], _ => none
  | t :: rest, name =>
    if match_tile t name then some 0
    else (find_match rest name).map (· + 1)

/-- handle_create_event from src/pmdock.c lines 474-495. -/
def handle_create_event (s : AppState) (ev : CreateEvent) : AppState × List XOp :=
  match ev.res_name with
  | none => (s, [])
  | some name =>
    match find_match s.tiles name with
    | none => (s, [])
    | some i => swallow_dockapp s ev i

/-- One main-loop iteration for a CreateNotify event: such events reach
    the dispatcher only while SubstructureNotifyMask is selected on the
    root window. -/
def step (s : AppState) (ev : CreateEvent) : AppState × List XOp :=
  if s.listening then handle_create_event s ev else (s, [])

/-- The event loop over a sequence of CreateNotify events. -/
def run : AppState → List CreateEvent → AppState × List XOp
  | s, [] => (s, [])
  | s, ev :: rest =>
    let r1 := step s ev
    let r2 := run r1.1 rest
    (r2.1, r1.2 ++ r2.2)

/-- Number of SIGUSR1 handshake signals in a trace. -/
def signals : List XOp → Nat
  | [] => 0
  | XOp.signalParent :: rest => signals rest + 1
  | _ :: rest => signals rest

/-- Reparent and map requests of a trace. -/
def reparent_or_map : XOp → Bool
  | XOp.reparentWindow _ _ _ _ => true
  | XOp.mapRaised _ => true
  | _ => false

/-- Result of the X protocol error handler: the returned int (returning at
    all means the process is not terminated) and whether a message was
    written (pm_debug writes only in verbose mode). -/
structure ErrorResult where
  returned : Int
  logged : Bool
deriving DecidableEq, Repr

/-- The XErrorEvent fields read by the handler. -/
structure XErrorEventM where
  request_code : Nat
  minor_code : Nat
  error_code : Nat
  resourceid : Nat
deriving DecidableEq, Repr

/-- handle_error_event from src/pmdock.c lines 444-460: silently returns 0
    for errors whose request_code is 20 (X_GetProperty), otherwise calls
    pm_debug and returns 0. -/
def handle_error_event (verbose : Bool) (e : XErrorEventM) : ErrorResult :=
  if e.request_code = 20 then { returned := 0, logged := false }
  else { returned := 0, logged := verbose }

/-- Render requests issued by handle_expose_event. -/
inductive RenderOp where
  | renderBg (target : Nat) (x y : Int)
  | renderIcon (target : Nat) (x y : Int)
deriving DecidableEq, Repr

/-- The loop of handle_expose_event over tiles with their indices;
    iconSize i is the imlib image size of the icon of tile i. -/
def expose_tiles (s : AppState) (window : Nat) (iconSize : Nat → Nat × Nat) :
    Nat → List Tile → List RenderOp
  | _, [] => []
  | i, t :: rest =>
    let pos := get_tile_position s.horizontal s.tile_size i
    let here : List RenderOp :=
      if window = s.dock_window ∧ t.type ≠ TILE_TYPE_LAUNCHER then
        [RenderOp.renderBg s.dock_window pos.1 pos.2]
      else if window = t.window ∧ t.type = TILE_TYPE_LAUNCHER then
        [RenderOp.renderBg t.window 0 0,
         RenderOp.renderIcon t.window (launcher_icon_pos s.tile_size (iconSize i).1 (iconSize i).2).1
           (launcher_icon_pos s.tile_size (iconSize i).1 (iconSize i).2).2]
      else []
    here ++ expose_tiles s window iconSize (i + 1) rest

/-- handle_expose_event from src/pmdock.c lines 514-543. -/
def handle_expose_event (s : AppState) (window : Nat) (iconSize : Nat → Nat × Nat) :
    List RenderOp :=
  expose_tiles s window iconSize 0 s.tiles

/-- Per-window X server state affected by the recorded requests. -/
structure WinState where
  parent : Nat
  x : Int
  y : Int
  mapped : Bool
  border : Nat
deriving DecidableEq, Repr

/-- Effect of one recorded request on the per-window state. -/
def applyOp (st : Nat → WinState) : XOp → Nat → WinState
  | XOp.unmapWindow w => fun v => if v = w then { st w with mapped := false } else st v
  | XOp.mapRaised w => fun v => if v = w then { st w with mapped := true } else st v
  | XOp.reparentWindow w p x y =>
    fun v => if v = w then { st w with parent := p, x := x, y := y } else st v
  | XOp.setBorderWidth w b => fun v => if v = w then { st w with border := b } else st v
  | _ => st

/-- Effect of a request trace on the per-window state. -/
def applyOps (st : Nat → WinState) : List XOp → Nat → WinState
  | [] => st
  | op :: rest => applyOps (applyOp st op) rest

/-- Command line options after getopt decoding (optstring
    aAb:c:D:df:Hhi:s:t:r:vx:y:). -/
inductive Opt where
  | a | A | v
  | x (n : Int) | y (n : Int) | s (n : Int) | H
  | r (name : String) | i (path : String) | c (cmd : String)
  | t (ty : String) | b (path : String) | d
  | f (n : Nat) | D (n : Nat) | h
deriving DecidableEq, Repr

/-- The configuration part of struct app produced by parse_opts. -/
structure Config where
  above_all : Bool
  all_desktops : Bool
  daemon_mode : Bool
  horizontal : Bool
  initial_x : Int
  initial_y : Int
  mwm_decor : Nat
  mwm_funcs : Nat
  tile_size : Nat
  verbose : Bool
  bg_path : String
  tiles : List Tile
deriving DecidableEq, Repr

/-- Exit taken by parse_opts: the exit status and whether the usage text
    was printed to stderr by exit_usage. -/
structure ExitInfo where
  status : Nat
  usage : Bool
deriving DecidableEq, Repr

/-- Loop state of the second getopt pass of parse_opts. -/
structure ParseSt where
  cfg : Config
  pending_command : Option String
  pending_icon : Option String
  pending_resname : Option String
  current_tile : Nat
deriving DecidableEq, Repr

/-- The static initializer of struct app, with the tile array allocated
    from the count obtained by the first getopt pass. -/
def config0 (tile_count : Nat) : Config :=
  { above_all := false, all_desktops := false, daemon_mode := false, horizontal := false,
    initial_x := 0, initial_y := 0, mwm_decor := 0, mwm_funcs := 0, tile_size := 64,
    verbose := false, bg_path := "tile-default.png",
    tiles := List.replicate tile_count tile_default }

/-- One option of the second getopt pass of parse_opts, src/pmdock.c lines
    571-664.  Image loading is delegated to the external image library and
    modelled as succeeding; invalid options fall into the default case and
    are ignored. -/
def parse_step (st : ParseSt) (o : Opt) : Except ExitInfo ParseSt :=
  match o with
  | Opt.A => .ok { st with cfg := { st.cfg with above_all := true } }
  | Opt.a => .ok { st with cfg := { st.cfg with all_desktops := true } }
  | Opt.v => .ok { st with cfg := { st.cfg with verbose := true } }
  | Opt.x n => .ok { st with cfg := { st.cfg with initial_x := n } }
  | Opt.y n => .ok { st with cfg := { st.cfg with initial_y := n } }
  | Opt.s n =>
    if n ≤ 0 then .error { status := 1, usage := true }
    else .ok { st with cfg := { st.cfg with tile_size := n.toNat } }
  | Opt.H => .ok { st with cfg := { st.cfg with horizontal := true } }
  | Opt.r name => .ok { st with pending_resname := some name }
  | Opt.i path => .ok { st with pending_icon := some path }
  | Opt.c cmd => .ok { st with pending_command := some cmd }
  | Opt.t ty =>
    match st.pending_command with
    | none => .error { status := 1, usage := true }
    | some cmd =>
      if ty = "dockapp" then
        match st.pending_resname with
        | none => .error { status := 1, usage := true }
        | some rn =>
          .ok { st with
            cfg := { st.cfg with
              tiles := st.cfg.tiles.set st.current_tile
                { tile_default with type := TILE_TYPE_APP, command := cmd, res_name := some rn } },
            current_tile := st.current_tile + 1,
            pending_command := none, pending_icon := none, pending_resname := none }
      else if ty = "launcher" then
        match st.pending_icon with
        | none => .error { status := 1, usage := true }
        | some path =>
          .ok { st with
            cfg := { st.cfg with
              tiles := st.cfg.tiles.set st.current_tile
                { tile_default with
                  type := TILE_TYPE_LAUNCHER, command := cmd, icon := some path } },
            current_tile := st.current_tile + 1,
            pending_command := none, pending_icon := none, pending_resname := none }
      else .error { status := 1, usage := true }
  | Opt.b path => .ok { st with cfg := { st.cfg with bg_path := path } }
  | Opt.d => .ok { st with cfg := { st.cfg with daemon_mode := true } }
  | Opt.f n => .ok { st with cfg := { st.cfg with mwm_funcs := n } }
  | Opt.D n => .ok { st with cfg := { st.cfg with mwm_decor := n } }
  | Opt.h => .error { status := 0, usage := true }

/-- The first getopt pass of parse_opts: count the t options. -/
def count_t (opts : List Opt) : Nat :=
  opts.countP (fun o => match o with | Opt.t _ => true | _ => false)

/-- The second getopt pass of parse_opts, with the early process exits as
    the error case. -/
def parse_fold : ParseSt → List Opt → Except ExitInfo ParseSt
  | st, [] => .ok st
  | st, o :: rest =>
    match parse_step st o with
    | .error e => .error e
    | .ok st2 => parse_fold st2 rest

/-- parse_opts from src/pmdock.c lines 545-673: both passes followed by
    the no-tiles check. -/
def parse_opts (opts : List Opt) : Except ExitInfo Config :=
  match parse_fold
      { cfg := config0 (count_t opts), pending_command := none, pending_icon := none,
        pending_resname := none, current_tile := 0 } opts with
  | .error e => .error e
  | .ok st =>
    if count_t opts = 0 then .error { status := 1, usage := true }
    else .ok st.cfg

/-- Phase order of main, src/pmdock.c lines 816-836: parse_opts runs
    before setup_display, so an exit taken during parsing happens before
    any X connection is opened. -/
def main_opens_display (opts : List Opt) : Bool :=
  match parse_opts opts with
  | .error _ => false
  | .ok _ => true

lemma toInt32_of_lt (n : Nat) (h : n < 2147483648) : toInt32 n = (n : Int) := by
  unfold toInt32 U32
  split <;> omega

lemma toUInt32i_natCast (n : Nat) (h : n < U32) : toUInt32i (n : Int) = n := by
  unfold toUInt32i U32 at *
  omega

lemma usub32_of_le (a b : Nat) (hb : b ≤ a) (ha : a < U32) : usub32 a b = a - b := by
  unfold usub32 U32 at *
  omega

lemma get_tile_position_of_small (horizontal : Bool) (S i : Nat) (h : i * S < 2147483648) :
    get_tile_position horizontal S i =
      (if horizontal then ((i * S : Nat) : Int) else 0,
       if horizontal then 0 else ((i * S : Nat) : Int)) := by
  unfold get_tile_position
  rw [toInt32_of_lt _ h]

lemma swallow_axis (p S w : Nat) (hw : w ≤ S) (hfit : p + S < 2147483648) :
    toInt32 (toUInt32i (p : Int) + usub32 S w / 2) = (p : Int) + (((S - w) / 2 : Nat) : Int) := by
  rw [toUInt32i_natCast p (by unfold U32; omega),
      usub32_of_le S w hw (by unfold U32; omega),
      toInt32_of_lt _ (by omega)]
  push_cast
  ring

/-- C7 counterexample: at tile index 2^26 with tile size 64 in horizontal
    layout the unsigned product index * tile_size wraps modulo 2^32 and
    the returned x offset is 0 instead of index * tile_size = 2^32, so the
    claimed equation position(i) = (i*S, 0) fails as universally stated. -/
theorem c7_counterexample :
    (get_tile_position true 64 67108864).1 = 0 ∧ ((67108864 * 64 : Nat) : Int) ≠ 0 := by
  constructor <;> decide

/-- C7 (amended): for 0 < S and (i+1)*S < 2^31, so that the 32-bit
    unsigned product and its conversion to int do not overflow, the tile
    position is (i*S, 0) horizontally and (0, i*S) vertically, consecutive
    positions differ by exactly S on the layout axis and 0 on the other,
    and positions are strictly increasing on the layout axis. -/
theorem c7_tile_positions_amended (horizontal : Bool) (S i : Nat) (hS : 0 < S)
    (h : (i + 1) * S < 2147483648) :
    get_tile_position horizontal S i =
      (if horizontal then ((i * S : Nat) : Int) else 0,
       if horizontal then 0 else ((i * S : Nat) : Int)) ∧
    (if horizontal
      then (get_tile_position horizontal S (i + 1)).1 - (get_tile_position horizontal S i).1
      else (get_tile_position horizontal S (i + 1)).2 - (get_tile_position horizontal S i).2)
      = (S : Int) ∧
    (if horizontal
      then (get_tile_position horizontal S (i + 1)).2 - (get_tile_position horizontal S i).2
      else (get_tile_position horizontal S (i + 1)).1 - (get_tile_position horizontal S i).1)
      = 0 ∧
    (if horizontal
      then (get_tile_position horizontal S i).1 < (get_tile_position horizontal S (i + 1)).1
      else (get_tile_position horizontal S i).2 < (get_tile_position horizontal S (i + 1)).2) := by
  have hexp : (i + 1) * S = i * S + S := by ring
  have hi : i * S < 2147483648 := by omega
  rw [get_tile_position_of_small horizontal S i hi,
      get_tile_position_of_small horizontal S (i + 1) h, hexp]
  cases horizontal <;> simp <;> omega

/-- C7 witness at index 3, tile size 64, horizontal layout. -/
theorem c7_witness :
    get_tile_position true 64 3 =
      (if true then ((3 * 64 : Nat) : Int) else 0,
       if true then 0 else ((3 * 64 : Nat) : Int)) :=
  (c7_tile_positions_amended true 64 3 (by decide) (by decide)).1

/-- C5 (code bug evidence): the protocol error handler always returns 0
    and never terminates the process; but the silent filter keys on
    request_code 20 (X_GetProperty) rather than on the BadWindow error
    class (error_code 3), despite the source comment: a BadWindow error on
    a ReparentWindow request (request_code 7) is logged in verbose mode,
    while a BadMatch error (error_code 8) on a GetProperty request is
    silently swallowed. -/
theorem c5_error_handler_eval :
    (∀ (verbose : Bool) (e : XErrorEventM), (handle_error_event verbose e).returned = 0) ∧
    (handle_error_event true
        { request_code := 7, minor_code := 0, error_code := 3, resourceid := 0 }).logged = true ∧
    (handle_error_event true
        { request_code := 20, minor_code := 0, error_code := 8, resourceid := 0 }).logged
      = false := by
  refine ⟨fun verbose e => ?_, by decide, by decide⟩
  unfold handle_error_event
  split <;> rfl

/-- C1 counterexample: a 65 pixel wide icon in a 64 pixel tile at index 0
    in horizontal layout is not clamped to the tile origin by the swallow
    placement: the unsigned subtraction tile_size - width wraps modulo
    2^32 and the x offset becomes 2147483647. -/
theorem c1_counterexample :
    (swallow_icon_pos true 64 0 65 48).1 ≠ (get_tile_position true 64 0).1 ∧
    (swallow_icon_pos true 64 0 65 48).1 = 2147483647 := by
  constructor <;> decide

lemma toUInt32i_zero : toUInt32i 0 = 0 := by decide

/-- C1 (amended): for icon sizes w ≤ S and h ≤ S the swallow placement
    equals the tile position plus the centering offset
    ((S - w) / 2, (S - h) / 2), provided the tile coordinates fit in the
    32-bit int arithmetic of the source; the launcher expose path renders
    at ((S - w) / 2, (S - h) / 2) whenever w ≤ S and h ≤ S and clamps an
    oversized axis to the tile origin.  The swallow path does not clamp an
    oversized icon (see the counterexample). -/
theorem c1_icon_centering_amended (horizontal : Bool) (S i w h : Nat)
    (hw : w ≤ S) (hh : h ≤ S) (hfit : (i + 1) * S < 2147483648) :
    swallow_icon_pos horizontal S i w h =
      ((get_tile_position horizontal S i).1 + (((S - w) / 2 : Nat) : Int),
       (get_tile_position horizontal S i).2 + (((S - h) / 2 : Nat) : Int)) ∧
    (∀ w2 h2 : Nat, w2 ≤ S → h2 ≤ S →
      launcher_icon_pos S w2 h2 = ((((S - w2) / 2 : Nat) : Int), (((S - h2) / 2 : Nat) : Int))) ∧
    (∀ w2 h2 : Nat, S ≤ w2 → (launcher_icon_pos S w2 h2).1 = 0) ∧
    (∀ w2 h2 : Nat, S ≤ h2 → (launcher_icon_pos S w2 h2).2 = 0) := by
  have hexp : (i + 1) * S = i * S + S := by ring
  have hi : i * S < 2147483648 := by omega
  refine ⟨?_, fun w2 h2 hw2 hh2 => ?_, fun w2 h2 hw2 => ?_, fun w2 h2 hh2 => ?_⟩
  · unfold swallow_icon_pos get_tile_position toInt32 toUInt32i usub32 U32
    cases horizontal <;> simp only [Prod.ext_iff, if_true, if_false, Bool.false_eq_true] <;>
      norm_num <;> constructor <;> split_ifs <;> omega
  · simp only [launcher_icon_pos, Prod.mk.injEq]
    constructor <;> split
    · rfl
    · have : S - w2 = 0 := by omega
      simp [this]
    · rfl
    · have : S - h2 = 0 := by omega
      simp [this]
  · simp [launcher_icon_pos]
    omega
  · simp [launcher_icon_pos]
    omega

/-- C1 witness: a 48 x 48 icon in a 64 pixel tile at index 0 in vertical
    layout is placed at the tile position plus (8, 8). -/
theorem c1_witness :
    swallow_icon_pos false 64 0 48 48 =
      ((get_tile_position false 64 0).1 + (((64 - 48) / 2 : Nat) : Int),
       (get_tile_position false 64 0).2 + (((64 - 48) / 2 : Nat) : Int)) :=
  (c1_icon_centering_amended false 64 0 48 48 (by decide) (by decide) (by decide)).1

lemma getD_set_self (l : List Tile) (idx : Nat) (t : Tile) (h : idx < l.length) :
    (l.set idx t).getD idx tile_default = t := by
  induction l generalizing idx with
  | nil => simp at h
  | cons a as ih =>
    cases idx with
    | zero => rfl
    | succ i2 =>
      have := ih i2 (by simpa using h)
      simpa [List.set, List.getD] using this

lemma getD_set_ne (l : List Tile) (idx j : Nat) (t : Tile) (h : idx ≠ j) :
    (l.set idx t).getD j tile_default = l.getD j tile_default := by
  induction l generalizing idx j with
  | nil => simp [List.set]
  | cons a as ih =>
    cases idx with
    | zero =>
      cases j with
      | zero => exact absurd rfl h
      | succ j2 => rfl
    | succ i2 =>
      cases j with
      | zero => rfl
      | succ j2 =>
        have := ih i2 j2 (by omega)
        simpa [List.set, List.getD] using this

lemma find_match_some (tiles : List Tile) (name : String) (i : Nat)
    (h : find_match tiles name = some i) :
    i < tiles.length ∧ match_tile (tiles.getD i tile_default) name = true ∧
      ∀ j, j < i → match_tile (tiles.getD j tile_default) name = false := by
  induction tiles generalizing i with
  | nil => simp [find_match] at h
  | cons t rest ih =>
    by_cases hm : match_tile t name
    · simp [find_match, hm] at h
      subst h
      refine ⟨by simp, by simpa [List.getD] using hm, fun j hj => by omega⟩
    · simp [find_match, hm, Option.map_eq_some'] at h
      obtain ⟨i2, h2, rfl⟩ := h
      obtain ⟨hlen, hat, hbefore⟩ := ih i2 h2
      refine ⟨by simpa using hlen, by simpa [List.getD] using hat, fun j hj => ?_⟩
      cases j with
      | zero => simpa [List.getD] using hm
      | succ j2 => simpa [List.getD] using hbefore j2 (by omega)

lemma find_match_none (tiles : List Tile) (name : String)
    (h : ∀ t ∈ tiles, match_tile t name = false) : find_match tiles name = none := by
  induction tiles with
  | nil => rfl
  | cons t rest ih =>
    simp [find_match, h t (by simp), ih (fun u hu => h u (by simp [hu]))]

lemma waiting_cases (ev : CreateEvent) :
    get_icon_window_waiting ev =
      (if ev.icon 0 ≠ 0 then (ev.icon 0, [XOp.getHints ev.window])
       else if ev.icon 1 ≠ 0 then
         (ev.icon 1, [XOp.getHints ev.window, XOp.sleep 100000, XOp.getHints ev.window])
       else (0, [XOp.getHints ev.window, XOp.sleep 100000, XOp.getHints ev.window,
                 XOp.sleep 100000])) := by
  by_cases h0 : ev.icon 0 = 0 <;> by_cases h1 : ev.icon 1 = 0 <;>
    simp [get_icon_window_waiting, waiting_loop, h0, h1]

lemma swallow_fail (s : AppState) (ev : CreateEvent) (i : Nat)
    (h : (get_icon_window_waiting ev).1 = 0) :
    swallow_dockapp s ev i =
      (s, (if ev.wmRunning then [XOp.sleep 100000] else []) ++ (get_icon_window_waiting ev).2) := by
  unfold swallow_dockapp
  simp [h]

lemma waiting_no_reparent (ev : CreateEvent) :
    (get_icon_window_waiting ev).2.countP reparent_or_map = 0 := by
  rw [waiting_cases]
  by_cases h0 : ev.icon 0 = 0 <;> by_cases h1 : ev.icon 1 = 0 <;>
    simp [h0, h1, reparent_or_map]

lemma waiting_signals (ev : CreateEvent) : signals (get_icon_window_waiting ev).2 = 0 := by
  rw [waiting_cases]
  by_cases h0 : ev.icon 0 = 0 <;> by_cases h1 : ev.icon 1 = 0 <;> simp [h0, h1, signals]

/-- Example dockapp tile, unfilled. -/
def exTile : Tile :=
  { command := "xclock", icon := none, pid := 0, res_name := some "xclock",
    type := TILE_TYPE_APP, window := 0 }

/-- Example application state with a single unfilled dockapp tile. -/
def exState : AppState :=
  { tiles := [exTile], tile_size := 64, horizontal := false, daemon_mode := true,
    root_window := 1, dock_window := 2, listening := true }

/-- Example state whose only dockapp tile is already filled. -/
def exStateFilled : AppState :=
  { exState with tiles := [{ exTile with window := 5 }] }

/-- Example matching event whose first icon query returns window 9. -/
def exEvent : CreateEvent :=
  { window := 7, res_name := some "xclock", wmRunning := false, icon := fun _ => 9,
    iconSize := (48, 48) }

/-- Example matching event whose icon queries always fail. -/
def exEventNoIcon : CreateEvent :=
  { exEvent with icon := fun _ => 0 }

/-- C6: icon discovery performs at most two WM hints queries, with a fixed
    100000 microsecond usleep after each failed attempt (so ~100ms between
    the two attempts), and returns the first nonzero result; when both
    attempts fail, swallow_dockapp aborts: the application state, so in
    particular every tile, is unchanged, and the emitted trace contains no
    reparent and no map request. -/
theorem c6_icon_discovery_bounded :
    (∀ ev : CreateEvent,
      (ev.icon 0 ≠ 0 →
        get_icon_window_waiting ev = (ev.icon 0, [XOp.getHints ev.window])) ∧
      (ev.icon 0 = 0 → ev.icon 1 ≠ 0 →
        get_icon_window_waiting ev =
          (ev.icon 1, [XOp.getHints ev.window, XOp.sleep 100000, XOp.getHints ev.window])) ∧
      (ev.icon 0 = 0 → ev.icon 1 = 0 →
        get_icon_window_waiting ev =
          (0, [XOp.getHints ev.window, XOp.sleep 100000, XOp.getHints ev.window,
               XOp.sleep 100000]))) ∧
    (∀ (s : AppState) (ev : CreateEvent) (i : Nat),
      (get_icon_window_waiting ev).1 = 0 →
      swallow_dockapp s ev i =
        (s, (if ev.wmRunning then [XOp.sleep 100000] else []) ++
          (get_icon_window_waiting ev).2) ∧
      (swallow_dockapp s ev i).2.countP reparent_or_map = 0) := by
  constructor
  · intro ev
    refine ⟨fun h0 => ?_, fun h0 h1 => ?_, fun h0 h1 => ?_⟩ <;>
      rw [waiting_cases] <;> simp [h0]
    · simp [h1]
    · simp [h1]
  · intro s ev i h
    refine ⟨swallow_fail s ev i h, ?_⟩
    rw [swallow_fail s ev i h, List.countP_append, waiting_no_reparent]
    cases hwm : ev.wmRunning <;> simp [reparent_or_map]

/-- C6 witness: both icon queries fail, so the swallow aborts with the
    state unchanged. -/
theorem c6_witness :
    swallow_dockapp exState exEventNoIcon 0 =
      (exState, (if exEventNoIcon.wmRunning then [XOp.sleep 100000] else []) ++
        (get_icon_window_waiting exEventNoIcon).2) :=
  (c6_icon_discovery_bounded.2 exState exEventNoIcon 0 (by decide)).1

/-- C8: a CreateNotify event whose window has no class hints, or whose
    resource name matches no unfilled tile, leaves the application state
    and every field of every tile unchanged and issues no X requests at
    all (in particular no reparent and no map). -/
theorem c8_no_match_no_effect (s : AppState) (ev : CreateEvent)
    (h : ev.res_name = none ∨
      ∃ name, ev.res_name = some name ∧
        ∀ t ∈ s.tiles, ¬ (t.window = 0 ∧ t.res_name = some name)) :
    handle_create_event s ev = (s, []) := by
  rcases h with h | ⟨name, hn, hm⟩
  · unfold handle_create_event
    rw [h]
  · simp only [handle_create_event, hn]
    rw [find_match_none s.tiles name (fun t ht => by simpa [match_tile] using hm t ht)]

/-- C8 witness: an event matching only an already filled tile has no
    effect. -/
theorem c8_witness : handle_create_event exStateFilled exEvent = (exStateFilled, []) :=
  c8_no_match_no_effect exStateFilled exEvent (Or.inr ⟨"xclock", rfl, by decide⟩)

/-- The new tile array after a successful swallow of the icon window into
    tile index i. -/
def swallow_tiles (s : AppState) (ev : CreateEvent) (i : Nat) : List Tile :=
  s.tiles.set i { s.tiles.getD i tile_default with window := (get_icon_window_waiting ev).1 }

/-- The main window parking position computed by swallow_dockapp: two tile
    lengths away on the cross axis, aligned with the icon on the layout
    axis. -/
def swallow_main_pos (s : AppState) (ev : CreateEvent) (i : Nat) : Int × Int :=
  (if s.horizontal
    then (swallow_icon_pos s.horizontal s.tile_size i ev.iconSize.1 ev.iconSize.2).1
    else toInt32 (s.tile_size * 2),
   if s.horizontal
    then toInt32 (s.tile_size * 2)
    else (swallow_icon_pos s.horizontal s.tile_size i ev.iconSize.1 ev.iconSize.2).2)

/-- The window-manager workaround sequence of swallow_dockapp: unmap both,
    flush, 50ms pause, reparent both, flush, 50ms pause. -/
def swallow_wm_seq (s : AppState) (ev : CreateEvent) (i : Nat) : List XOp :=
  [XOp.unmapWindow ev.window, XOp.unmapWindow (get_icon_window_waiting ev).1, XOp.flush,
   XOp.sleep 50000,
   XOp.reparentWindow ev.window s.dock_window (swallow_main_pos s ev i).1
     (swallow_main_pos s ev i).2,
   XOp.reparentWindow (get_icon_window_waiting ev).1 s.dock_window
     (swallow_icon_pos s.horizontal s.tile_size i ev.iconSize.1 ev.iconSize.2).1
     (swallow_icon_pos s.horizontal s.tile_size i ev.iconSize.1 ev.iconSize.2).2,
   XOp.flush, XOp.sleep 50000]

/-- The unconditional tail of swallow_dockapp: reparent both, map both
    raised, flush. -/
def swallow_common_seq (s : AppState) (ev : CreateEvent) (i : Nat) : List XOp :=
  [XOp.reparentWindow ev.window s.dock_window (swallow_main_pos s ev i).1
     (swallow_main_pos s ev i).2,
   XOp.reparentWindow (get_icon_window_waiting ev).1 s.dock_window
     (swallow_icon_pos s.horizontal s.tile_size i ev.iconSize.1 ev.iconSize.2).1
     (swallow_icon_pos s.horizontal s.tile_size i ev.iconSize.1 ev.iconSize.2).2,
   XOp.mapRaised ev.window, XOp.mapRaised (get_icon_window_waiting ev).1, XOp.flush]

/-- The completion requests of swallow_dockapp: stop listening on the root
    window and, in daemon mode, signal the parent. -/
def swallow_done_ops (s : AppState) : List XOp :=
  XOp.selectInput s.root_window 0 :: (if s.daemon_mode then [XOp.signalParent] else [])

/-- The request trace of a successful swallow, before the completion
    check. -/
def swallow_base_ops (s : AppState) (ev : CreateEvent) (i : Nat) : List XOp :=
  (if ev.wmRunning then [XOp.sleep 100000] else []) ++ (get_icon_window_waiting ev).2 ++
    XOp.setBorderWidth (get_icon_window_waiting ev).1 0 ::
    ((if ev.wmRunning then swallow_wm_seq s ev i else []) ++ swallow_common_seq s ev i)

lemma swallow_success_eq (s : AppState) (ev : CreateEvent) (i : Nat)
    (h : (get_icon_window_waiting ev).1 ≠ 0) :
    swallow_dockapp s ev i =
      (if check_all_dockapps_swallowed (swallow_tiles s ev i)
       then ({ s with tiles := swallow_tiles s ev i, listening := false },
             swallow_base_ops s ev i ++ swallow_done_ops s)
       else ({ s with tiles := swallow_tiles s ev i }, swallow_base_ops s ev i)) := by
  unfold swallow_dockapp swallow_tiles swallow_base_ops swallow_done_ops swallow_wm_seq
    swallow_common_seq swallow_main_pos
  simp only [if_neg h]

lemma swallow_success_tiles (s : AppState) (ev : CreateEvent) (i : Nat)
    (h : (get_icon_window_waiting ev).1 ≠ 0) :
    (swallow_dockapp s ev i).1.tiles = swallow_tiles s ev i := by
  rw [swallow_success_eq s ev i h]
  split <;> rfl

lemma swallow_daemon (s : AppState) (ev : CreateEvent) (i : Nat) :
    (swallow_dockapp s ev i).1.daemon_mode = s.daemon_mode := by
  by_cases h : (get_icon_window_waiting ev).1 = 0
  · rw [swallow_fail s ev i h]
  · rw [swallow_success_eq s ev i h]
    split <;> rfl

lemma swallow_root (s : AppState) (ev : CreateEvent) (i : Nat) :
    (swallow_dockapp s ev i).1.root_window = s.root_window := by
  by_cases h : (get_icon_window_waiting ev).1 = 0
  · rw [swallow_fail s ev i h]
  · rw [swallow_success_eq s ev i h]
    split <;> rfl

lemma handle_create_cases (s : AppState) (ev : CreateEvent) :
    handle_create_event s ev = (s, []) ∨
    ∃ name i, ev.res_name = some name ∧ find_match s.tiles name = some i ∧
      handle_create_event s ev = swallow_dockapp s ev i := by
  unfold handle_create_event
  cases hres : ev.res_name with
  | none => exact Or.inl rfl
  | some name =>
    cases hfm : find_match s.tiles name with
    | none => exact Or.inl (by simp [hfm])
    | some i => exact Or.inr ⟨name, i, rfl, hfm, by simp [hfm]⟩

lemma step_cases (s : AppState) (ev : CreateEvent) :
    step s ev = (s, []) ∨
    (s.listening = true ∧ ∃ name i, ev.res_name = some name ∧
      find_match s.tiles name = some i ∧ step s ev = swallow_dockapp s ev i) := by
  unfold step
  cases hl : s.listening
  · exact Or.inl rfl
  · rcases handle_create_cases s ev with heq | ⟨name, i, hres, hfm, heq⟩
    · exact Or.inl (by simpa using heq)
    · exact Or.inr ⟨rfl, name, i, hres, hfm, by simpa using heq⟩

lemma step_change_spec (s : AppState) (ev : CreateEvent) (j : Nat)
    (h : ((step s ev).1.tiles.getD j tile_default).window ≠
      (s.tiles.getD j tile_default).window) :
    (s.tiles.getD j tile_default).window = 0 ∧
    ((step s ev).1.tiles.getD j tile_default).window ≠ 0 ∧
    ∃ name, ev.res_name = some name ∧ find_match s.tiles name = some j ∧
      ∀ k, k < j → match_tile (s.tiles.getD k tile_default) name = false := by
  rcases step_cases s ev with heq | ⟨hl, name, i, hres, hfm, heq⟩
  · rw [heq] at h
    exact absurd rfl h
  · rw [heq] at h ⊢
    by_cases hic : (get_icon_window_waiting ev).1 = 0
    · rw [swallow_fail s ev i hic] at h
      exact absurd rfl h
    · rw [swallow_success_tiles s ev i hic] at h ⊢
      obtain ⟨hlen, hmt, hbef⟩ := find_match_some s.tiles name i hfm
      by_cases hij : i = j
      · subst hij
        rw [match_tile, decide_eq_true_eq] at hmt
        rw [swallow_tiles, getD_set_self s.tiles i _ hlen]
        exact ⟨hmt.1, hic, name, hres, hfm, hbef⟩
      · rw [swallow_tiles, getD_set_ne s.tiles i j _ hij] at h
        exact absurd rfl h

lemma step_preserves_nonzero (s : AppState) (ev : CreateEvent) (j : Nat)
    (h : (s.tiles.getD j tile_default).window ≠ 0) :
    ((step s ev).1.tiles.getD j tile_default).window = (s.tiles.getD j tile_default).window := by
  by_cases hc : ((step s ev).1.tiles.getD j tile_default).window =
      (s.tiles.getD j tile_default).window
  · exact hc
  · exact absurd (step_change_spec s ev j hc).1 h

lemma run_preserves_nonzero (s : AppState) (evs : List CreateEvent) (j : Nat)
    (h : (s.tiles.getD j tile_default).window ≠ 0) :
    ((run s evs).1.tiles.getD j tile_default).window = (s.tiles.getD j tile_default).window := by
  induction evs generalizing s with
  | nil => rfl
  | cons ev rest ih =>
    have h1 := step_preserves_nonzero s ev j h
    have h2 := ih (step s ev).1 (by rw [h1]; exact h)
    simp only [run]
    rw [h2, h1]

/-- C2: over any sequence of CreateNotify events a dockapp tile window is
    set at most once: (a) when processing one event changes the window
    field of tile j, the old value was 0 (unset), the new value is
    nonzero, the class hint resource name of the event matched, j is the
    first matching unfilled index in order, and every smaller index did
    not match; (b) a nonzero window field is never changed again by any
    further event sequence. -/
theorem c2_window_set_once :
    (∀ (s : AppState) (ev : CreateEvent) (j : Nat),
      ((step s ev).1.tiles.getD j tile_default).window ≠
        (s.tiles.getD j tile_default).window →
      (s.tiles.getD j tile_default).window = 0 ∧
      ((step s ev).1.tiles.getD j tile_default).window ≠ 0 ∧
      ∃ name, ev.res_name = some name ∧ find_match s.tiles name = some j ∧
        ∀ k, k < j → match_tile (s.tiles.getD k tile_default) name = false) ∧
    (∀ (s : AppState) (evs : List CreateEvent) (j : Nat),
      (s.tiles.getD j tile_default).window ≠ 0 →
      ((run s evs).1.tiles.getD j tile_default).window =
        (s.tiles.getD j tile_default).window) :=
  ⟨step_change_spec, run_preserves_nonzero⟩

/-- C2 witness: the example matching event fills tile 0 (previously 0)
    with the nonzero icon window, and a filled tile survives a later
    matching event unchanged. -/
theorem c2_witness :
    (exState.tiles.getD 0 tile_default).window = 0 ∧
    ((run exStateFilled [exEvent]).1.tiles.getD 0 tile_default).window =
      (exStateFilled.tiles.getD 0 tile_default).window := by
  constructor
  · exact (c2_window_set_once.1 exState exEvent 0 (by decide)).1
  · exact c2_window_set_once.2 exStateFilled [exEvent] 0 (by decide)

lemma signals_append (a b : List XOp) : signals (a ++ b) = signals a + signals b := by
  induction a with
  | nil => simp [signals]
  | cons op rest ih =>
    cases op <;> simp [signals, ih]
    omega

lemma swallow_base_ops_signals (s : AppState) (ev : CreateEvent) (i : Nat) :
    signals (swallow_base_ops s ev i) = 0 := by
  unfold swallow_base_ops swallow_wm_seq swallow_common_seq
  cases hwm : ev.wmRunning
  all_goals simp [signals_append, signals, waiting_signals ev]

lemma swallow_success_more (s : AppState) (ev : CreateEvent) (i : Nat)
    (h : (get_icon_window_waiting ev).1 ≠ 0) :
    (check_all_dockapps_swallowed (swallow_tiles s ev i) = false →
      (swallow_dockapp s ev i).1.listening = s.listening ∧
      signals (swallow_dockapp s ev i).2 = 0) ∧
    (check_all_dockapps_swallowed (swallow_tiles s ev i) = true →
      (swallow_dockapp s ev i).1.listening = false ∧
      signals (swallow_dockapp s ev i).2 = (if s.daemon_mode then 1 else 0) ∧
      XOp.selectInput s.root_window 0 ∈ (swallow_dockapp s ev i).2) := by
  rw [swallow_success_eq s ev i h]
  constructor
  · intro hcheck
    simp [hcheck, swallow_base_ops_signals]
  · intro hcheck
    simp only [hcheck, if_true, ite_true]
    refine ⟨by trivial, ?_, ?_⟩
    · rw [signals_append, swallow_base_ops_signals]
      unfold swallow_done_ops
      cases hd : s.daemon_mode <;> simp [signals]
    · exact List.mem_append_right _ (by simp [swallow_done_ops])

lemma step_not_listening (s : AppState) (ev : CreateEvent) (h : s.listening = false) :
    step s ev = (s, []) := by
  unfold step
  simp [h]

lemma run_not_listening (s : AppState) (evs : List CreateEvent) (h : s.listening = false) :
    run s evs = (s, []) := by
  induction evs with
  | nil => rfl
  | cons ev rest ih => simp [run, step_not_listening s ev h, ih]

lemma run_append (s : AppState) (l1 l2 : List CreateEvent) :
    run s (l1 ++ l2) =
      ((run (run s l1).1 l2).1, (run s l1).2 ++ (run (run s l1).1 l2).2) := by
  induction l1 generalizing s with
  | nil => simp [run]
  | cons ev rest ih => simp [run, ih, List.append_assoc]

lemma step_invariant (s : AppState) (ev : CreateEvent)
    (hl : s.listening = true) (hc : check_all_dockapps_swallowed s.tiles = false) :
    (step s ev).1.daemon_mode = s.daemon_mode ∧
    (step s ev).1.root_window = s.root_window ∧
    (check_all_dockapps_swallowed (step s ev).1.tiles = false →
      (step s ev).1.listening = true ∧ signals (step s ev).2 = 0) ∧
    (check_all_dockapps_swallowed (step s ev).1.tiles = true →
      (step s ev).1.listening = false ∧
      signals (step s ev).2 = (if s.daemon_mode then 1 else 0) ∧
      XOp.selectInput s.root_window 0 ∈ (step s ev).2) := by
  rcases step_cases s ev with heq | ⟨_, name, i, hres, hfm, heq⟩
  · rw [heq]
    exact ⟨rfl, rfl, fun h2 => ⟨hl, rfl⟩, fun h2 => absurd h2 (by simp [hc])⟩
  · rw [heq]
    by_cases hic : (get_icon_window_waiting ev).1 = 0
    · rw [swallow_fail s ev i hic]
      have hs0 : signals ((if ev.wmRunning then [XOp.sleep 100000] else []) ++
          (get_icon_window_waiting ev).2) = 0 := by
        cases ev.wmRunning <;> simp [signals_append, signals, waiting_signals ev]
      exact ⟨rfl, rfl, fun h2 => ⟨hl, hs0⟩, fun h2 => absurd h2 (by simp [hc])⟩
    · have hm := swallow_success_more s ev i hic
      have ht := swallow_success_tiles s ev i hic
      refine ⟨swallow_daemon s ev i, swallow_root s ev i, ?_, ?_⟩
      · intro h2
        rw [ht] at h2
        obtain ⟨hl2, hs2⟩ := hm.1 h2
        exact ⟨by rw [hl2, hl], hs2⟩
      · intro h2
        rw [ht] at h2
        exact hm.2 h2

lemma run_invariant (s : AppState) (evs : List CreateEvent)
    (hl : s.listening = true) (hc : check_all_dockapps_swallowed s.tiles = false) :
    (check_all_dockapps_swallowed (run s evs).1.tiles = false →
      (run s evs).1.listening = true ∧ signals (run s evs).2 = 0) ∧
    (check_all_dockapps_swallowed (run s evs).1.tiles = true →
      (run s evs).1.listening = false ∧
      signals (run s evs).2 = (if s.daemon_mode then 1 else 0) ∧
      XOp.selectInput s.root_window 0 ∈ (run s evs).2) := by
  induction evs generalizing s with
  | nil => exact ⟨fun h2 => ⟨hl, rfl⟩, fun h2 => absurd h2 (by simp [run, hc])⟩
  | cons ev rest ih =>
    obtain ⟨hdm, hrw, hfalse, htrue⟩ := step_invariant s ev hl hc
    by_cases h2 : check_all_dockapps_swallowed (step s ev).1.tiles = true
    · obtain ⟨hl2, hsig, hmem⟩ := htrue h2
      have hrun := run_not_listening (step s ev).1 rest hl2
      have hr : run s (ev :: rest) = ((step s ev).1, (step s ev).2 ++ []) := by
        simp only [run, hrun]
      rw [hr]
      constructor
      · intro h3
        simp only at h3
        exact absurd h3 (by simp [h2])
      · intro h3
        exact ⟨hl2, by simpa using hsig, by simpa using hmem⟩
    · have h2f : check_all_dockapps_swallowed (step s ev).1.tiles = false := by
        simpa using h2
      obtain ⟨hl2, hsig0⟩ := hfalse h2f
      have ihr := ih (step s ev).1 hl2 h2f
      rw [hdm, hrw] at ihr
      constructor
      · intro h3
        simp only [run] at h3 ⊢
        obtain ⟨hl3, hs3⟩ := ihr.1 h3
        exact ⟨hl3, by rw [signals_append, hsig0, hs3]⟩
      · intro h3
        simp only [run] at h3 ⊢
        obtain ⟨hl3, hs3, hm3⟩ := ihr.2 h3
        refine ⟨hl3, ?_, List.mem_append_right _ hm3⟩
        rw [signals_append, hsig0, hs3, Nat.zero_add]

/-- C4: once a swallow fills the last unfilled dockapp tile, the run stops
    listening for CreateNotify events (XSelectInput with mask 0 appears in
    the trace and the listening flag drops), any further event sequence
    leaves both the state and the trace unchanged, and in daemon mode
    exactly one SIGUSR1 handshake signal appears in the whole trace. -/
theorem c4_completion (s : AppState) (evs : List CreateEvent)
    (hl : s.listening = true)
    (hc : check_all_dockapps_swallowed s.tiles = false)
    (hd : s.daemon_mode = true)
    (hdone : check_all_dockapps_swallowed (run s evs).1.tiles = true) :
    signals (run s evs).2 = 1 ∧
    (run s evs).1.listening = false ∧
    XOp.selectInput s.root_window 0 ∈ (run s evs).2 ∧
    ∀ more : List CreateEvent, run s (evs ++ more) = run s evs := by
  obtain ⟨hl2, hsig, hmem⟩ := (run_invariant s evs hl hc).2 hdone
  refine ⟨by rw [hsig, hd]; rfl, hl2, hmem, fun more => ?_⟩
  rw [run_append s evs more, run_not_listening _ more hl2]
  simp

/-- C4 witness: the single matching event fills the only dockapp tile, so
    exactly one handshake signal is emitted and listening stops. -/
theorem c4_witness :
    signals (run exState [exEvent]).2 = 1 ∧ (run exState [exEvent]).1.listening = false := by
  have h := c4_completion exState [exEvent] (by decide) (by decide) (by decide) (by decide)
  exact ⟨h.1, h.2.1⟩

lemma applyOps_append (st : Nat → WinState) (l1 l2 : List XOp) :
    applyOps st (l1 ++ l2) = applyOps (applyOps st l1) l2 := by
  induction l1 generalizing st with
  | nil => rfl
  | cons op rest ih => simp [applyOps, ih]

lemma applyOps_waiting (st : Nat → WinState) (ev : CreateEvent) :
    applyOps st (get_icon_window_waiting ev).2 = st := by
  rw [waiting_cases]
  by_cases h0 : ev.icon 0 = 0 <;> by_cases h1 : ev.icon 1 = 0 <;> simp [h0, h1] <;> rfl

lemma applyOps_done (st : Nat → WinState) (s : AppState) :
    applyOps st (swallow_done_ops s) = st := by
  unfold swallow_done_ops
  cases s.daemon_mode <;> rfl

lemma waiting_wm (ev : CreateEvent) (b : Bool) :
    get_icon_window_waiting { ev with wmRunning := b } = get_icon_window_waiting ev := rfl

lemma swallow_tiles_wm (s : AppState) (ev : CreateEvent) (b : Bool) (i : Nat) :
    swallow_tiles s { ev with wmRunning := b } i = swallow_tiles s ev i := rfl

lemma wm_seq_wm (s : AppState) (ev : CreateEvent) (b : Bool) (i : Nat) :
    swallow_wm_seq s { ev with wmRunning := b } i = swallow_wm_seq s ev i := rfl

lemma common_seq_wm (s : AppState) (ev : CreateEvent) (b : Bool) (i : Nat) :
    swallow_common_seq s { ev with wmRunning := b } i = swallow_common_seq s ev i := rfl

lemma base_ops_wm_true (s : AppState) (ev : CreateEvent) (i : Nat) :
    swallow_base_ops s { ev with wmRunning := true } i =
      XOp.sleep 100000 :: (get_icon_window_waiting ev).2 ++
        XOp.setBorderWidth (get_icon_window_waiting ev).1 0 ::
        (swallow_wm_seq s ev i ++ swallow_common_seq s ev i) := rfl

lemma base_ops_wm_false (s : AppState) (ev : CreateEvent) (i : Nat) :
    swallow_base_ops s { ev with wmRunning := false } i =
      (get_icon_window_waiting ev).2 ++
        XOp.setBorderWidth (get_icon_window_waiting ev).1 0 :: swallow_common_seq s ev i := rfl

lemma applyOps_wm_redundant (st : Nat → WinState) (s : AppState) (ev : CreateEvent) (i : Nat)
    (v : Nat) :
    applyOps st (swallow_wm_seq s ev i ++ swallow_common_seq s ev i) v =
    applyOps st (swallow_common_seq s ev i) v := by
  unfold swallow_wm_seq swallow_common_seq
  generalize ev.window = m
  generalize (get_icon_window_waiting ev).1 = w
  generalize (swallow_main_pos s ev i).1 = mx
  generalize (swallow_main_pos s ev i).2 = my
  generalize (swallow_icon_pos s.horizontal s.tile_size i ev.iconSize.1 ev.iconSize.2).1 = ix
  generalize (swallow_icon_pos s.horizontal s.tile_size i ev.iconSize.1 ev.iconSize.2).2 = iy
  by_cases hmw : m = w
  · subst hmw
    by_cases hv : v = m <;> simp [applyOps, applyOp, hv]
  · by_cases hvm : v = m
    · subst hvm
      simp [applyOps, applyOp, hmw, Ne.symm hmw]
    · by_cases hvw : v = w
      · subst hvw
        simp [applyOps, applyOp, hmw, Ne.symm hmw, hvm]
      · simp [applyOps, applyOp, hvm, hvw]

lemma applyOps_sleep_cons (st : Nat → WinState) (l : List XOp) :
    applyOps st (XOp.sleep 100000 :: l) = applyOps st l := rfl

lemma applyOps_base_ops (st : Nat → WinState) (s : AppState) (ev : CreateEvent) (i : Nat)
    (v : Nat) :
    applyOps st (swallow_base_ops s { ev with wmRunning := true } i) v =
    applyOps st (swallow_base_ops s { ev with wmRunning := false } i) v := by
  rw [base_ops_wm_true, base_ops_wm_false, applyOps_append, applyOps_append,
      applyOps_sleep_cons, applyOps_waiting]
  show applyOps (applyOp st (XOp.setBorderWidth (get_icon_window_waiting ev).1 0))
      (swallow_wm_seq s ev i ++ swallow_common_seq s ev i) v =
    applyOps (applyOp st (XOp.setBorderWidth (get_icon_window_waiting ev).1 0))
      (swallow_common_seq s ev i) v
  exact applyOps_wm_redundant _ s ev i v

/-- C3: for a swallow whose icon discovery succeeded, the branch with a
    window manager first emits the workaround: unmap both windows, flush,
    50000 microsecond pause, reparent both into the panel at their
    resolved offsets, flush, another 50000 microsecond pause; then both
    branches emit the identical tail: reparent both again, map both raised
    to the top, flush (and the completion requests).  The resulting
    application state is identical in the two branches, and applying
    either trace to any per-window X state yields the same final state for
    every window. -/
theorem c3_reparent_sequence (s : AppState) (ev : CreateEvent) (i : Nat)
    (h : (get_icon_window_waiting ev).1 ≠ 0) :
    (swallow_dockapp s { ev with wmRunning := true } i).1 =
      (swallow_dockapp s { ev with wmRunning := false } i).1 ∧
    (swallow_dockapp s { ev with wmRunning := true } i).2 =
      (XOp.sleep 100000 :: (get_icon_window_waiting ev).2 ++
        XOp.setBorderWidth (get_icon_window_waiting ev).1 0 ::
          (swallow_wm_seq s ev i ++ swallow_common_seq s ev i)) ++
      (if check_all_dockapps_swallowed (swallow_tiles s ev i) then swallow_done_ops s
       else []) ∧
    (swallow_dockapp s { ev with wmRunning := false } i).2 =
      ((get_icon_window_waiting ev).2 ++
        XOp.setBorderWidth (get_icon_window_waiting ev).1 0 :: swallow_common_seq s ev i) ++
      (if check_all_dockapps_swallowed (swallow_tiles s ev i) then swallow_done_ops s
       else []) ∧
    ∀ (st : Nat → WinState) (v : Nat),
      applyOps st (swallow_dockapp s { ev with wmRunning := true } i).2 v =
      applyOps st (swallow_dockapp s { ev with wmRunning := false } i).2 v := by
  have hTne : (get_icon_window_waiting { ev with wmRunning := true }).1 ≠ 0 := by
    rw [waiting_wm]; exact h
  have hFne : (get_icon_window_waiting { ev with wmRunning := false }).1 ≠ 0 := by
    rw [waiting_wm]; exact h
  have hT := swallow_success_eq s { ev with wmRunning := true } i hTne
  have hF := swallow_success_eq s { ev with wmRunning := false } i hFne
  rw [swallow_tiles_wm] at hT
  rw [swallow_tiles_wm] at hF
  refine ⟨?_, ?_, ?_, ?_⟩
  · rw [hT, hF]
    cases hch : check_all_dockapps_swallowed (swallow_tiles s ev i) <;> simp [hch]
  · rw [hT]
    cases hch : check_all_dockapps_swallowed (swallow_tiles s ev i) <;>
      simp [hch, base_ops_wm_true]
  · rw [hF]
    cases hch : check_all_dockapps_swallowed (swallow_tiles s ev i) <;>
      simp [hch, base_ops_wm_false]
  · intro st v
    rw [hT, hF]
    cases hch : check_all_dockapps_swallowed (swallow_tiles s ev i)
    · simp only [hch, if_false, Bool.false_eq_true]
      exact applyOps_base_ops st s ev i v
    · simp only [hch, if_true]
      rw [applyOps_append, applyOps_done, applyOps_append, applyOps_done]
      exact applyOps_base_ops st s ev i v

/-- C3 witness: at the concrete example state and event, the resulting
    application state is identical with and without a window manager. -/
theorem c3_witness :
    (swallow_dockapp exState { exEvent with wmRunning := true } 0).1 =
      (swallow_dockapp exState { exEvent with wmRunning := false } 0).1 :=
  (c3_reparent_sequence exState exEvent 0 (by decide)).1

/-- Options that neither exit the process nor set or reset the pending
    command during the second getopt pass. -/
def neutral_opt : Opt → Bool
  | Opt.c _ => false
  | Opt.t _ => false
  | Opt.h => false
  | Opt.s n => decide (0 < n)
  | _ => true

lemma parse_step_neutral (st : ParseSt) (o : Opt) (hn : neutral_opt o = true) :
    ∃ st2, parse_step st o = .ok st2 ∧ st2.pending_command = st.pending_command := by
  cases o with
  | c cmd => exact absurd hn (by simp [neutral_opt])
  | t ty => exact absurd hn (by simp [neutral_opt])
  | h => exact absurd hn (by simp [neutral_opt])
  | s n =>
    simp only [neutral_opt, decide_eq_true_eq] at hn
    refine ⟨{ st with cfg := { st.cfg with tile_size := n.toNat } }, ?_, rfl⟩
    simp only [parse_step]
    rw [if_neg (by omega)]
  | a => exact ⟨_, rfl, rfl⟩
  | A => exact ⟨_, rfl, rfl⟩
  | v => exact ⟨_, rfl, rfl⟩
  | x n => exact ⟨_, rfl, rfl⟩
  | y n => exact ⟨_, rfl, rfl⟩
  | H => exact ⟨_, rfl, rfl⟩
  | r name => exact ⟨_, rfl, rfl⟩
  | i path => exact ⟨_, rfl, rfl⟩
  | b path => exact ⟨_, rfl, rfl⟩
  | d => exact ⟨_, rfl, rfl⟩
  | f n => exact ⟨_, rfl, rfl⟩
  | D n => exact ⟨_, rfl, rfl⟩

lemma parse_fold_neutral (pre : List Opt) (st : ParseSt)
    (hpre : ∀ o ∈ pre, neutral_opt o = true) (hpc : st.pending_command = none) :
    ∃ st2, parse_fold st pre = Except.ok st2 ∧ st2.pending_command = none := by
  induction pre generalizing st with
  | nil => exact ⟨st, rfl, hpc⟩
  | cons o rest ih =>
    obtain ⟨st2, hstep, hpc2⟩ := parse_step_neutral st o (hpre o (by simp))
    obtain ⟨st3, hfold, hpc3⟩ :=
      ih st2 (fun o2 ho2 => hpre o2 (by simp [ho2])) (by rw [hpc2, hpc])
    exact ⟨st3, by simp [parse_fold, hstep, hfold], hpc3⟩

lemma parse_fold_append (st : ParseSt) (l1 l2 : List Opt) :
    parse_fold st (l1 ++ l2) =
      match parse_fold st l1 with
      | .error e => .error e
      | .ok st2 => parse_fold st2 l2 := by
  induction l1 generalizing st with
  | nil => simp [parse_fold]
  | cons o r ih =>
    simp only [List.cons_append, parse_fold]
    cases parse_step st o <;> simp [ih]

/-- C9: a t option whose processing finds no pending command makes
    parse_opts exit with status 1 after printing the usage text, and main
    never opens the X display: formally, whenever the first t option of
    the command line is preceded only by options that neither exit nor set
    the pending command (no c, no h, no invalid s), parsing stops with
    status 1 and usage, before any display is opened. -/
theorem c9_t_without_c (pre rest : List Opt) (ty : String)
    (hpre : ∀ o ∈ pre, neutral_opt o = true) :
    parse_opts (pre ++ Opt.t ty :: rest) = .error { status := 1, usage := true } ∧
    main_opens_display (pre ++ Opt.t ty :: rest) = false := by
  obtain ⟨st2, hfold, hpc⟩ := parse_fold_neutral pre
    { cfg := config0 (count_t (pre ++ Opt.t ty :: rest)), pending_command := none,
      pending_icon := none, pending_resname := none, current_tile := 0 } hpre rfl
  have herr : parse_fold
      { cfg := config0 (count_t (pre ++ Opt.t ty :: rest)), pending_command := none,
        pending_icon := none, pending_resname := none, current_tile := 0 }
      (pre ++ Opt.t ty :: rest) = .error { status := 1, usage := true } := by
    rw [parse_fold_append, hfold]
    simp [parse_fold, parse_step, hpc]
  constructor
  · unfold parse_opts
    rw [herr]
  · unfold main_opens_display parse_opts
    rw [herr]

/-- C9 witness: the option list r xclock, t dockapp (no c option) fails
    with status 1 and usage and the display is never opened. -/
theorem c9_witness :
    parse_opts [Opt.r "xclock", Opt.t "dockapp"] = .error { status := 1, usage := true } ∧
    main_opens_display [Opt.r "xclock", Opt.t "dockapp"] = false := by
  simpa using c9_t_without_c [Opt.r "xclock"] [] "dockapp" (by decide)

lemma parse_step_wf (st st2 : ParseSt) (o : Opt)
    (hinv : ∀ t ∈ st.cfg.tiles, t.type ≠ TILE_TYPE_APP → t.res_name = none)
    (h : parse_step st o = .ok st2) :
    ∀ t ∈ st2.cfg.tiles, t.type ≠ TILE_TYPE_APP → t.res_name = none := by
  cases o with
  | t ty =>
    simp only [parse_step] at h
    cases hpc : st.pending_command with
    | none => rw [hpc] at h; simp at h
    | some cmd =>
      simp only [hpc] at h
      by_cases hd : ty = "dockapp"
      · rw [if_pos hd] at h
        cases hrn : st.pending_resname with
        | none => rw [hrn] at h; simp at h
        | some rn =>
          simp only [hrn] at h
          simp only [Except.ok.injEq] at h
          subst h
          intro t ht htype
          rcases List.mem_or_eq_of_mem_set ht with hmem | heq
          · exact hinv t hmem htype
          · subst heq
            exact absurd rfl htype
      · rw [if_neg hd] at h
        by_cases hl : ty = "launcher"
        · rw [if_pos hl] at h
          cases hpi : st.pending_icon with
          | none => rw [hpi] at h; simp at h
          | some path =>
            simp only [hpi] at h
            simp only [Except.ok.injEq] at h
            subst h
            intro t ht htype
            rcases List.mem_or_eq_of_mem_set ht with hmem | heq
            · exact hinv t hmem htype
            · subst heq
              rfl
        · rw [if_neg hl] at h
          simp at h
  | s n =>
    simp only [parse_step] at h
    by_cases hle : n ≤ 0
    · rw [if_pos hle] at h; simp at h
    · rw [if_neg hle] at h
      simp only [Except.ok.injEq] at h
      subst h
      exact hinv
  | c cmd =>
    simp only [parse_step, Except.ok.injEq] at h
    subst h
    exact hinv
  | h =>
    simp only [parse_step] at h
    simp at h
  | a =>
    simp only [parse_step, Except.ok.injEq] at h
    subst h
    exact hinv
  | A =>
    simp only [parse_step, Except.ok.injEq] at h
    subst h
    exact hinv
  | v =>
    simp only [parse_step, Except.ok.injEq] at h
    subst h
    exact hinv
  | x n =>
    simp only [parse_step, Except.ok.injEq] at h
    subst h
    exact hinv
  | y n =>
    simp only [parse_step, Except.ok.injEq] at h
    subst h
    exact hinv
  | H =>
    simp only [parse_step, Except.ok.injEq] at h
    subst h
    exact hinv
  | r name =>
    simp only [parse_step, Except.ok.injEq] at h
    subst h
    exact hinv
  | i path =>
    simp only [parse_step, Except.ok.injEq] at h
    subst h
    exact hinv
  | b path =>
    simp only [parse_step, Except.ok.injEq] at h
    subst h
    exact hinv
  | d =>
    simp only [parse_step, Except.ok.injEq] at h
    subst h
    exact hinv
  | f n =>
    simp only [parse_step, Except.ok.injEq] at h
    subst h
    exact hinv
  | D n =>
    simp only [parse_step, Except.ok.injEq] at h
    subst h
    exact hinv

lemma parse_fold_wf (opts : List Opt) (st st2 : ParseSt)
    (hinv : ∀ t ∈ st.cfg.tiles, t.type ≠ TILE_TYPE_APP → t.res_name = none)
    (h : parse_fold st opts = .ok st2) :
    ∀ t ∈ st2.cfg.tiles, t.type ≠ TILE_TYPE_APP → t.res_name = none := by
  induction opts generalizing st with
  | nil =>
    simp only [parse_fold, Except.ok.injEq] at h
    subst h
    exact hinv
  | cons o rest ih =>
    simp only [parse_fold] at h
    cases hstep : parse_step st o with
    | error e => rw [hstep] at h; simp at h
    | ok st3 =>
      rw [hstep] at h
      exact ih st3 (parse_step_wf st st3 o hinv hstep) h

lemma parse_opts_wf (opts : List Opt) (cfg : Config) (h : parse_opts opts = .ok cfg) :
    ∀ t ∈ cfg.tiles, t.type ≠ TILE_TYPE_APP → t.res_name = none := by
  unfold parse_opts at h
  cases hfold : parse_fold
      { cfg := config0 (count_t opts), pending_command := none, pending_icon := none,
        pending_resname := none, current_tile := 0 } opts with
  | error e => rw [hfold] at h; simp at h
  | ok stf =>
    simp only [hfold] at h
    by_cases hc : count_t opts = 0
    · rw [if_pos hc] at h; simp at h
    · rw [if_neg hc] at h
      simp only [Except.ok.injEq] at h
      subst h
      refine parse_fold_wf opts _ stf ?_ hfold
      intro t ht htype
      have heq := List.eq_of_mem_replicate (by simpa [config0] using ht)
      subst heq
      rfl

lemma handle_create_unmatched (s : AppState) (ev : CreateEvent)
    (h : ev.res_name = none ∨
      ∃ name, ev.res_name = some name ∧
        ∀ t ∈ s.tiles, ¬ (t.window = 0 ∧ t.res_name = some name)) :
    handle_create_event s ev = (s, []) := by
  rcases h with h | ⟨name, hn, hm⟩
  · unfold handle_create_event
    rw [h]
  · simp only [handle_create_event, hn]
    rw [find_match_none s.tiles name (fun t ht => by simpa [match_tile] using hm t ht)]

/-- C10: (a) in every configuration accepted by parse_opts, a tile that is
    not a dockapp has no resource name; (b) consequently, when no tile of
    the state is a dockapp (launchers only), no CreateNotify event ever
    has any effect: over any event sequence the state is unchanged and the
    request trace is empty, so the completion check inside swallow_dockapp
    is never reached, no SIGUSR1 handshake is ever emitted, and a daemon
    parent suspended in pause() is never released. -/
theorem c10_launchers_only_never_signal :
    (∀ (opts : List Opt) (cfg : Config), parse_opts opts = .ok cfg →
      ∀ t ∈ cfg.tiles, t.type ≠ TILE_TYPE_APP → t.res_name = none) ∧
    (∀ (s : AppState) (evs : List CreateEvent),
      (∀ t ∈ s.tiles, t.res_name = none) →
      run s evs = (s, []) ∧ signals (run s evs).2 = 0) := by
  refine ⟨parse_opts_wf, fun s evs hall => ?_⟩
  have hstep : ∀ ev : CreateEvent, step s ev = (s, []) := by
    intro ev
    unfold step
    cases hl : s.listening
    · simp
    · simp only [if_true]
      refine handle_create_unmatched s ev ?_
      cases hres : ev.res_name with
      | none => exact Or.inl rfl
      | some name =>
        exact Or.inr ⟨name, rfl, fun t ht => by simp [hall t ht]⟩
  have hrun : run s evs = (s, []) := by
    induction evs with
    | nil => rfl
    | cons ev rest ih => simp [run, hstep ev, ih]
  exact ⟨hrun, by rw [hrun]; rfl⟩

/-- Example launcher-only application state in daemon mode. -/
def exLauncherState : AppState :=
  { tiles := [{ command := "xterm", icon := some "icon.png", pid := 0, res_name := none,
                type := TILE_TYPE_LAUNCHER, window := 3 }],
    tile_size := 64, horizontal := false, daemon_mode := true, root_window := 1,
    dock_window := 2, listening := true }

/-- C10 witness: with the launcher-only daemon state, a CreateNotify event
    changes nothing and no handshake signal is emitted. -/
theorem c10_witness :
    run exLauncherState [exEvent] = (exLauncherState, []) ∧
    signals (run exLauncherState [exEvent]).2 = 0 :=
  c10_launchers_only_never_signal.2 exLauncherState [exEvent] (by decide)
